import Mathlib

/-!
Shallow embedding of the Midea M-Control integration core
(`custom_components/midea_mcontrol`): the local CCM21-i status decoder
(`aircontrolbase.py`), the polling coordinator (`coordinator.py`) and the
climate entity's control dispatch (`climate.py`).  Python dicts are modelled
as insertion-ordered association lists, machine bytes as `Nat` values below
256 produced by the hex decoder, wall-clock instants as rationals, and
fallible paths as `Except` results threaded through explicit state passing.
-/

/-! ## Constants (`const.py`) -/

def MODE_COOL : String := "cool"

def MODE_HEAT : String := "heat"

def MODE_AUTO : String := "auto"

def MODE_FAN : String := "fan"

def MODE_DRY : String := "dry"

def WIND_AUTO : String := "auto"

def WIND_LOW : String := "low"

def WIND_MID : String := "mid"

def WIND_HIGH : String := "high"

def POWER_ON : String := "y"

def POWER_OFF : String := "n"

def LOCAL_MODE_COOL : Nat := 0

def LOCAL_MODE_HEAT : Nat := 1

def LOCAL_MODE_DRY : Nat := 2

def LOCAL_MODE_FAN : Nat := 3

def LOCAL_MODE_OFF : Nat := 4

def LOCAL_MODE_AUTO : Nat := 5

def LOCAL_FAN_AUTO : Nat := 0

def LOCAL_FAN_LOW : Nat := 2

def LOCAL_FAN_MEDIUM : Nat := 3

def LOCAL_FAN_HIGH : Nat := 4

def LOCAL_FAN_OFF : Nat := 5

/-- `COMMAND_COOLDOWN_SECONDS` from `coordinator.py`. -/
def COMMAND_COOLDOWN_SECONDS : ℚ := 15

/-! ## Association lists standing in for Python dicts -/

/-- `d.get(k)`: value of the first (hence, with `alInsert` maintained keys,
the unique) binding of `k`. -/
def alGet {α : Type} (l : List (String × α)) (k : String) : Option α :=
  (l.find? (fun p => p.1 == k)).map Prod.snd

/-- `d[k] = v`: replace the value in place if the key exists (Python dicts
keep the original position), otherwise append a new binding. -/
def alInsert {α : Type} (l : List (String × α)) (k : String) (v : α) :
    List (String × α) :=
  if l.any (fun p => p.1 == k) then
    l.map (fun p => if p.1 == k then (k, v) else p)
  else
    l ++ [(k, v)]

/-- A cloud device record / control payload: a string-to-string field map. -/
abbrev FieldMap : Type := List (String × String)

/-- `base.update(other)` (Python `dict.update`). -/
def fmUpdate (base other : FieldMap) : FieldMap :=
  other.foldl (fun acc p => alInsert acc p.1 p.2) base

/-- A per-tick snapshot: device identifier to field map, in insertion order. -/
abbrev Snapshot : Type := List (String × FieldMap)

/-! ## `LocalDeviceState` and the local-to-cloud conversion
(`aircontrolbase.py`) -/

/-- Parsed state of one AC unit from local CCM21-i hex data. -/
structure LocalDeviceState where
  addr : Nat
  ac_mode : Nat
  fan_mode : Nat
  temperature : Int
  temperature_setpoint : Nat
  is_swing_on : Bool
  error_code : Nat
  is_on : Bool
  deriving DecidableEq, Repr

/-- `LOCAL_MODE_TO_CLOUD.get(m, MODE_AUTO)`: the dict value is itself
optional because local mode "off" maps to Python `None`; a key outside the
dict falls back to the default `MODE_AUTO`. -/
def LOCAL_MODE_TO_CLOUD_get (m : Nat) : Option String :=
  if m = LOCAL_MODE_COOL then some MODE_COOL
  else if m = LOCAL_MODE_HEAT then some MODE_HEAT
  else if m = LOCAL_MODE_DRY then some MODE_DRY
  else if m = LOCAL_MODE_FAN then some MODE_FAN
  else if m = LOCAL_MODE_OFF then none
  else if m = LOCAL_MODE_AUTO then some MODE_AUTO
  else some MODE_AUTO

/-- `LOCAL_FAN_TO_CLOUD.get(f, WIND_AUTO)`. -/
def LOCAL_FAN_TO_CLOUD_get (f : Nat) : String :=
  if f = LOCAL_FAN_AUTO then WIND_AUTO
  else if f = LOCAL_FAN_LOW then WIND_LOW
  else if f = LOCAL_FAN_MEDIUM then WIND_MID
  else if f = LOCAL_FAN_HIGH then WIND_HIGH
  else if f = LOCAL_FAN_OFF then WIND_AUTO
  else WIND_AUTO

/-- `LocalDeviceState.to_cloud_format`. -/
def LocalDeviceState.to_cloud_format (s : LocalDeviceState) : FieldMap :=
  [("power", if s.is_on then POWER_ON else POWER_OFF),
   ("mode", (LOCAL_MODE_TO_CLOUD_get s.ac_mode).getD MODE_AUTO),
   ("setTemp", toString s.temperature_setpoint),
   ("wind", LOCAL_FAN_TO_CLOUD_get s.fan_mode),
   ("factTemp", toString s.temperature),
   ("swing", if s.is_swing_on then "1" else "0")]

/-! ## Hex decoding (`parse_hex_status`) -/

/-- ASCII whitespace, as stripped by `str.strip()` and skipped by
`bytes.fromhex`. -/
def isPySpace (c : Char) : Bool :=
  c = ' ' || c = '\t' || c = '\n' || c = '\x0d' || c = '\x0b' || c = '\x0c'

/-- `s.strip(chars)` / `s.strip()`: drop characters satisfying `p` from both
ends. -/
def pyStrip (p : Char → Bool) (cs : List Char) : List Char :=
  ((cs.dropWhile p).reverse.dropWhile p).reverse

/-- `hex_data.strip(",").strip()` from `parse_hex_status`. -/
def hexClean (cs : List Char) : List Char :=
  pyStrip isPySpace (pyStrip (fun c => c = ',') cs)

/-- Value of one hex digit, `none` for a non-digit. -/
def hexDigitVal (c : Char) : Option Nat :=
  if '0' ≤ c ∧ c ≤ '9' then some (c.toNat - 48)
  else if 'a' ≤ c ∧ c ≤ 'f' then some (c.toNat - 87)
  else if 'A' ≤ c ∧ c ≤ 'F' then some (c.toNat - 55)
  else none

/-- `bytes.fromhex`: ASCII whitespace may separate byte pairs, each byte is
two adjacent hex digits; anything else raises `ValueError` (`none` here). -/
def pyFromHex : List Char → Option (List Nat)
  | [] => some []
  | [c] => if isPySpace c then some [] else none
  | c :: d :: rest =>
    if isPySpace c then pyFromHex (d :: rest)
    else
      match hexDigitVal c, hexDigitVal d with
      | some hi, some lo => (pyFromHex rest).map (fun bs => (16 * hi + lo) :: bs)
      | _, _ => none

set_option linter.unusedVariables false in
/-- The bit-extraction tail of `parse_hex_status`, applied to the decoded
bytes.  Mirrors the source line by line, including the dead first
assignment to `is_on` that the later `is_on = ac_mode != LOCAL_MODE_OFF`
overwrites. -/
def parseRawBytes (addr : Nat) (raw : List Nat) : Option LocalDeviceState :=
  if raw.length < 7 then none
  else
    let byte3 := raw.getD 3 0
    let ac_mode := (byte3 >>> 2) &&& 7
    let fan_mode := (byte3 >>> 5) &&& 7
    let is_on := (byte3 &&& 1) != 0 || ac_mode != LOCAL_MODE_OFF
    let byte4 := raw.getD 4 0
    let is_swing_on := ((byte4 >>> 1) &&& 1) != 0
    let temperature_setpoint := (byte4 >>> 3) &&& 0x1F
    let byte2 := raw.getD 2 0
    let error_code := (byte2 >>> 2) &&& 0x3F
    let byte6 := raw.getD 6 0
    let temperature : Int := if byte6 < 128 then (byte6 : Int) else (byte6 : Int) - 256
    let is_on := ac_mode != LOCAL_MODE_OFF
    some { addr := addr, ac_mode := ac_mode, fan_mode := fan_mode,
           temperature := temperature,
           temperature_setpoint := temperature_setpoint,
           is_swing_on := is_swing_on, error_code := error_code,
           is_on := is_on }

/-- `parse_hex_status(addr, hex_data)` from `aircontrolbase.py`. -/
def parse_hex_status (addr : Nat) (hex_data : String) : Option LocalDeviceState :=
  if hex_data = "-" ∨ hex_data.length < 14 then none
  else
    match pyFromHex (hexClean hex_data.toList) with
    | none => none
    | some raw => parseRawBytes addr raw

/-! ## `LocalApi.get_status` (`aircontrolbase.py`) -/

/-- One entry of the local gateway's JSON response: an optional `addr` field
and an optional `Data` field (read with default `"-"`). -/
structure LocalEntry where
  addr : Option Nat
  data : Option String
  deriving DecidableEq, Repr

/-- Outcome of the HTTP POST inside `LocalApi.get_status`: a timeout, a
connection error, or a response with a status code and a parsed JSON body. -/
inductive LocalHttp where
  | timeout
  | connError
  | response (status : Nat) (entries : List LocalEntry)
  deriving DecidableEq, Repr

/-- The entry loop of `LocalApi.get_status`: skip entries with a missing
`addr` or sentinel `Data`, decode the rest, keep successful decodes. -/
def collectLocalStates : List LocalEntry → List LocalDeviceState
  | [] => []
  | e :: rest =>
    match e.addr, e.data.getD "-" with
    | none, _ => collectLocalStates rest
    | some a, hx =>
      if hx = "-" then collectLocalStates rest
      else
        match parse_hex_status a hx with
        | some st => st :: collectLocalStates rest
        | none => collectLocalStates rest

/-- `LocalApi.get_status`: swallows timeouts, connection errors and non-200
responses to an empty list; otherwise decodes every well-formed entry. -/
def LocalApi_get_status : LocalHttp → List LocalDeviceState
  | LocalHttp.timeout => []
  | LocalHttp.connError => []
  | LocalHttp.response status entries =>
    if status ≠ 200 then [] else collectLocalStates entries

/-! ## Coordinator state (`coordinator.py`) -/

/-- The mutable fields of `MideaMControlCoordinator` (plus `hasLocal`, the
`_local_api is not None` configuration flag, and `data`, the snapshot the
`DataUpdateCoordinator` base class retains between ticks). -/
structure CoordState where
  hasLocal : Bool
  idToAddr : List (String × Nat)
  cloudCache : Snapshot
  lastCommandTime : ℚ
  haOverrides : List (String × FieldMap)
  data : Option Snapshot
  deriving DecidableEq

/-- `notify_command_sent` at monotonic instant `now`. -/
def notify_command_sent (c : CoordState) (now : ℚ) : CoordState :=
  { c with lastCommandTime := now }

/-- `set_ha_override(device_id, **fields)`: create the device's entry when
absent, then copy `mode` and `wind` (in that order) from `fields`. -/
def set_ha_override (c : CoordState) (deviceId : String) (fields : FieldMap) :
    CoordState :=
  let ovs := if c.haOverrides.any (fun p => p.1 == deviceId) then c.haOverrides
             else c.haOverrides ++ [(deviceId, [])]
  let cur := (alGet ovs deviceId).getD []
  let cur := match alGet fields "mode" with
             | some v => alInsert cur "mode" v
             | none => cur
  let cur := match alGet fields "wind" with
             | some v => alInsert cur "wind" v
             | none => cur
  { c with haOverrides := alInsert ovs deviceId cur }

/-- `clear_ha_overrides(device_id)` (`dict.pop(device_id, None)`). -/
def clear_ha_overrides (c : CoordState) (deviceId : String) : CoordState :=
  { c with haOverrides := c.haOverrides.filter (fun p => ¬ (p.1 = deviceId)) }

/-- `_in_cooldown` at monotonic instant `now`. -/
def in_cooldown (c : CoordState) (now : ℚ) : Bool :=
  if c.lastCommandTime = 0 then false
  else decide (now - c.lastCommandTime < COMMAND_COOLDOWN_SECONDS)

/-- `_apply_ha_overrides`: for every device with a stored non-empty override
present in the result, update its field map in place. -/
def apply_ha_overrides : List (String × FieldMap) → Snapshot → Snapshot
  | [], result => result
  | p :: ovs, result =>
    match alGet result p.1 with
    | some dd =>
      if p.2 ≠ [] then apply_ha_overrides ovs (alInsert result p.1 (fmUpdate dd p.2))
      else apply_ha_overrides ovs result
    | none => apply_ha_overrides ovs result

/-- The device loop shared by `async_initial_cloud_fetch` and
`_update_from_cloud`: key every record carrying an `"id"` field by that
identifier. -/
def devicesById (devices : List FieldMap) : Snapshot :=
  (devices.filterMap (fun d => (alGet d "id").map (fun i => (i, d)))).foldl
    (fun acc p => alInsert acc p.1 p.2) []

/-- `_update_from_cloud`, with the outcome of `cloud_api.get_devices()`
passed in: a failed fetch is surfaced as `UpdateFailed` (the `error` case),
a successful one rebuilds the snapshot and the cloud record cache and then
applies the overrides. -/
def update_from_cloud (c : CoordState) (fetch : Except Unit (List FieldMap)) :
    CoordState × Except Unit Snapshot :=
  match fetch with
  | Except.error _ => (c, Except.error ())
  | Except.ok devices =>
    let pairs := devices.filterMap (fun d => (alGet d "id").map (fun i => (i, d)))
    let result := pairs.foldl (fun acc p => alInsert acc p.1 p.2) []
    let cache := pairs.foldl (fun acc p => alInsert acc p.1 p.2) c.cloudCache
    ({ c with cloudCache := cache },
     Except.ok (apply_ha_overrides c.haOverrides result))

/-- The `addr_to_state` dict comprehension of `_update_from_local`: on a
duplicated address the later state wins. -/
def addr_lookup (states : List LocalDeviceState) (a : Nat) :
    Option LocalDeviceState :=
  states.reverse.find? (fun s => s.addr == a)

/-- The body of the per-device loop of `_update_from_local`: start from the
cached cloud record (empty dict when the identifier is not cached) and
overlay the converted local state when one reported for the address. -/
def localDeviceData (c : CoordState) (states : List LocalDeviceState)
    (p : String × Nat) : FieldMap :=
  let cached := (alGet c.cloudCache p.1).getD []
  match addr_lookup states p.2 with
  | some st => fmUpdate cached st.to_cloud_format
  | none => cached

/-- `_update_from_local`, with the outcomes of `local_api.get_status()` and
of the cloud fetch a failure would fall back to passed in.  A local failure
delegates to `update_from_cloud`; otherwise the result is keyed by the
mapped identifiers, in `_id_to_addr` insertion order. -/
def update_from_local (c : CoordState)
    (localFetch : Except Unit (List LocalDeviceState))
    (cloudFetch : Except Unit (List FieldMap)) :
    CoordState × Except Unit Snapshot :=
  match localFetch with
  | Except.error _ => update_from_cloud c cloudFetch
  | Except.ok states =>
    let result := c.idToAddr.foldl
      (fun res p => alInsert res p.1 (localDeviceData c states p)) []
    (c, Except.ok (apply_ha_overrides c.haOverrides result))

/-- `_async_update_data` at instant `now`, with both possible fetch
outcomes passed in: in cooldown the previous snapshot (`self.data or {}`)
is returned untouched; otherwise the local path runs exactly when a local
transport is configured and the address map is non-empty. -/
def async_update_data (c : CoordState) (now : ℚ)
    (localFetch : Except Unit (List LocalDeviceState))
    (cloudFetch : Except Unit (List FieldMap)) :
    CoordState × Except Unit Snapshot :=
  if in_cooldown c now then (c, Except.ok (c.data.getD []))
  else if c.hasLocal = true ∧ c.idToAddr ≠ [] then
    update_from_local c localFetch cloudFetch
  else update_from_cloud c cloudFetch

/-! ## Address reconciliation (`_build_addr_mapping`) -/

/-- The temperature heuristic of strategy 1: the cloud record's `factTemp`
and `setTemp` strings equal the decimal renderings of the local state's
measured temperature and setpoint (`cloud_data.get(...) == str(...)`). -/
def tempsMatch (d : FieldMap) (l : LocalDeviceState) : Bool :=
  alGet d "factTemp" == some (toString l.temperature) &&
  alGet d "setTemp" == some (toString l.temperature_setpoint)

/-- Stable insertion of a local state into a list sorted by ascending
address: an element inserted later goes after equal addresses. -/
def insertByAddr (x : LocalDeviceState) :
    List LocalDeviceState → List LocalDeviceState
  | [] => [x]
  | y :: ys => if x.addr ≤ y.addr then x :: y :: ys else y :: insertByAddr x ys

/-- `sorted(local_states, key=lambda x: x.addr)`: a stable sort by
ascending address. -/
def sortByAddr : List LocalDeviceState → List LocalDeviceState
  | [] => []
  | x :: xs => insertByAddr x (sortByAddr xs)

/-- Strategy 1 of `_build_addr_mapping`: for each cloud record in original
order, take the first local state (ascending address order) that is not yet
in the matched set and whose temperatures match; record the pair, the
matched cloud identifier and the consumed local address.  Returns the pairs,
the matched cloud identifiers and the final matched-address set. -/
def strat1 : List (String × FieldMap) → List LocalDeviceState → List Nat →
    List (String × Nat) × List String × List Nat
  | [], _, ml => ([], [], ml)
  | (did, d) :: rest, locs, ml =>
    match locs.find? (fun l => !(decide (l.addr ∈ ml)) && tempsMatch d l) with
    | some l =>
      let r := strat1 rest locs (l.addr :: ml)
      ((did, l.addr) :: r.1, did :: r.2.1, r.2.2)
    | none => strat1 rest locs ml

/-- `_build_addr_mapping` as a pure function from the cloud device items (in
dict insertion order) and the local fetch result to the `_id_to_addr`
association it builds: strategy 1 (attribute match) followed by strategy 2
(zip of the leftovers, locals in ascending address order).  An empty local
fetch builds nothing. -/
def build_addr_mapping (cloudList : List (String × FieldMap))
    (localStates : List LocalDeviceState) : List (String × Nat) :=
  if localStates = [] then []
  else
    let ll := sortByAddr localStates
    let r := strat1 cloudList ll []
    let uc := cloudList.filter (fun p => !(decide (p.1 ∈ r.2.1)))
    let ul := ll.filter (fun l => !(decide (l.addr ∈ r.2.2)))
    r.1 ++ (uc.zip ul).map (fun q => (q.1.1, q.2.addr))

/-- `async_initial_cloud_fetch`, with the cloud fetch outcome and the local
fetch used by `_build_addr_mapping` passed in.  A failed cloud fetch is
fatal (`UpdateFailed`); otherwise the snapshot and cloud cache are built and,
when a local transport is configured, the address map. -/
def async_initial_cloud_fetch (c : CoordState)
    (fetch : Except Unit (List FieldMap))
    (localFetch : List LocalDeviceState) :
    CoordState × Except Unit Snapshot :=
  match fetch with
  | Except.error _ => (c, Except.error ())
  | Except.ok devices =>
    let pairs := devices.filterMap (fun d => (alGet d "id").map (fun i => (i, d)))
    let result := pairs.foldl (fun acc p => alInsert acc p.1 p.2) []
    let cache := pairs.foldl (fun acc p => alInsert acc p.1 p.2) c.cloudCache
    let c := { c with cloudCache := cache }
    let c := if c.hasLocal then
               { c with idToAddr := c.idToAddr ++ build_addr_mapping result localFetch }
             else c
    (c, Except.ok result)

/-! ## `_send_control` (`climate.py`) -/

/-- `MideaMControlClimate._send_control`, with the entity's
`self._device_data` fallback and the network call's fate passed in.  The
returned state is the coordinator state at completion (normal or raised)
and, on success, the merged payload that also becomes the entity's
`_last_device_data`.  The cooldown is recorded before the network call; the
optimistic snapshot write happens only after the call returns. -/
def send_control (c : CoordState) (deviceData : FieldMap) (deviceId : String)
    (overrides : FieldMap) (now : ℚ) (networkOk : Bool) :
    CoordState × Except Unit FieldMap :=
  let base := (alGet c.cloudCache deviceId).getD []
  let base := if base = [] then deviceData else base
  let st := fmUpdate base overrides
  let c1 := notify_command_sent c now
  if networkOk then
    let c2 := match c1.data with
              | some d => if d ≠ [] then { c1 with data := some (alInsert d deviceId st) }
                          else c1
              | none => c1
    (c2, Except.ok st)
  else (c1, Except.error ())

/-! ## The reconciliation policy as worded by the specification (§4.4) -/

/-- Modelled from the spec's wording of the two-pass matching policy,
pass 1: "for each still-unmatched cloud record (in original order) and each
still-unmatched local state (in ascending address order), match if [the
temperatures agree]. First local candidate found wins; consumed on match."
Consumption is modelled by erasing the matched candidate from the pool.
Returns the matched pairs, the leftover cloud records and the leftover
local states, each in their original order. -/
def specPass1 : List (String × FieldMap) → List LocalDeviceState →
    List (String × Nat) × List (String × FieldMap) × List LocalDeviceState
  | [], locs => ([], [], locs)
  | (did, d) :: rest, locs =>
    match locs.find? (fun l => tempsMatch d l) with
    | some l =>
      let r := specPass1 rest (locs.eraseP (fun l => tempsMatch d l))
      ((did, l.addr) :: r.1, r.2.1, r.2.2)
    | none =>
      let r := specPass1 rest locs
      (r.1, (did, d) :: r.2.1, r.2.2)

/-- Modelled from the spec: pass 1 on the locals in ascending address
order, then "any cloud records left unmatched are paired, in iteration
order, with any local addresses left unmatched, in ascending address order
(zip — stops at the shorter list's length)". -/
def specBuildAddrMapping (cloudList : List (String × FieldMap))
    (localStates : List LocalDeviceState) : List (String × Nat) :=
  if localStates = [] then []
  else
    let r := specPass1 cloudList (sortByAddr localStates)
    r.1 ++ (r.2.1.zip r.2.2).map (fun q => (q.1.1, q.2.addr))

/-! ## Concrete instances used by witnesses and counterexamples -/

/-- Value under an `Except.ok` result, for stating equalities decidably. -/
def okValue {α : Type} (e : Except Unit α) : Option α :=
  match e with
  | Except.ok a => some a
  | Except.error _ => none

/-- Cloud record `{id:"A", factTemp:"24", setTemp:"22"}` of the spec's
reconciliation scenario. -/
def cloudRecA : FieldMap := [("id", "A"), ("factTemp", "24"), ("setTemp", "22")]

/-- Cloud record `{id:"B", factTemp:"26", setTemp:"25"}` of the spec's
reconciliation scenario. -/
def cloudRecB : FieldMap := [("id", "B"), ("factTemp", "26"), ("setTemp", "25")]

/-- A cloud record for identifier `B` whose temperatures match no local
state. -/
def cloudRecB99 : FieldMap := [("id", "B"), ("factTemp", "99"), ("setTemp", "99")]

/-- Local state at address 1 reporting 24 °C measured / 22 °C setpoint. -/
def localState1 : LocalDeviceState :=
  { addr := 1, ac_mode := 0, fan_mode := 0, temperature := 24,
    temperature_setpoint := 22, is_swing_on := false, error_code := 0,
    is_on := true }

/-- Local state at address 2 reporting 26 °C measured / 25 °C setpoint. -/
def localState2 : LocalDeviceState :=
  { addr := 2, ac_mode := 0, fan_mode := 0, temperature := 26,
    temperature_setpoint := 25, is_swing_on := false, error_code := 0,
    is_on := true }

/-- A freshly constructed coordinator with a local transport configured. -/
def coordInit : CoordState :=
  { hasLocal := true, idToAddr := [], cloudCache := [], lastCommandTime := 0,
    haOverrides := [], data := none }

/-- The coordinator after a setup fetch returning `A` and `B99` while the
local gateway reports only address 1: `A` is matched by temperature, `B`
stays unmapped (no local address is left for the positional pass). -/
def coordAfterSetup : CoordState :=
  (async_initial_cloud_fetch coordInit (Except.ok [cloudRecA, cloudRecB99])
    [localState1]).1

/-- A cloud-only coordinator whose snapshot and cache hold device `A` in
mode `auto`, used to examine `_send_control`. -/
def coordCloudA : CoordState :=
  { hasLocal := false, idToAddr := [],
    cloudCache := [("A", [("id", "A"), ("mode", "auto")])],
    lastCommandTime := 0, haOverrides := [],
    data := some [("A", [("id", "A"), ("mode", "auto")])] }

/-- A coordinator that issued a command at monotonic instant 100. -/
def coordAfterCommand : CoordState :=
  { coordCloudA with lastCommandTime := 100 }

/-- An out-of-enum local state: mode code 6 and fan code 7 (producible,
since the decoder extracts 3-bit fields), with the decoder's power policy
`is_on = (ac_mode ≠ 4)`. -/
def localStateMode6 : LocalDeviceState :=
  { addr := 3, ac_mode := 6, fan_mode := 7, temperature := 20,
    temperature_setpoint := 21, is_swing_on := false, error_code := 0,
    is_on := true }

/-- A local state as decoded from a 7-byte record whose byte 3 is 0x10 or
0x11: mode code 4 (off), power bit clear or set. -/
def stOffPbit0 : LocalDeviceState :=
  { addr := 0, ac_mode := 4, fan_mode := 0, temperature := 0,
    temperature_setpoint := 0, is_swing_on := false, error_code := 0,
    is_on := false }

/-- A 7-byte record exercising every extracted field: error code 9, mode 5,
fan 0, swing on, setpoint 11, measured temperature byte 0xFF. -/
def rawSample : List Nat := [0, 0, 37, 23, 90, 0, 255]

/-- The decode of `rawSample` at address 7. -/
def stSample : LocalDeviceState :=
  { addr := 7, ac_mode := 5, fan_mode := 0, temperature := -1,
    temperature_setpoint := 11, is_swing_on := true, error_code := 9,
    is_on := true }

/-! ## Helper lemmas about the dict model -/

theorem any_of_alGet_eq_some {α : Type} {l : List (String × α)} {k : String}
    {v : α} (h : alGet l k = some v) : l.any (fun p => p.1 == k) = true := by
  unfold alGet at h
  cases hf : l.find? (fun p => p.1 == k) with
  | none => rw [hf] at h; simp at h
  | some x =>
    have hx := List.find?_some hf
    have hm := List.mem_of_find?_eq_some hf
    exact List.any_eq_true.mpr ⟨x, hm, hx⟩

theorem alInsert_keys_of_any {α : Type} (l : List (String × α)) (k : String)
    (v : α) (h : l.any (fun p => p.1 == k) = true) :
    (alInsert l k v).map Prod.fst = l.map Prod.fst := by
  unfold alInsert
  rw [if_pos h, List.map_map]
  apply List.map_congr_left
  intro p _
  by_cases hp : p.1 = k
  · simp [hp]
  · simp [hp]

theorem mem_alInsert_keys {α : Type} (l : List (String × α)) (k : String)
    (v : α) (a : String) :
    a ∈ (alInsert l k v).map Prod.fst ↔ a ∈ l.map Prod.fst ∨ a = k := by
  unfold alInsert
  by_cases h : l.any (fun p => p.1 == k) = true
  · rw [if_pos h]
    rw [List.map_map]
    have hkeys : l.map (Prod.fst ∘ fun p => if p.1 == k then (k, v) else p)
        = l.map Prod.fst := by
      apply List.map_congr_left
      intro p _
      by_cases hp : p.1 = k
      · simp [hp]
      · simp [hp]
    rw [hkeys]
    constructor
    · exact Or.inl
    · rintro (hm | rfl)
      · exact hm
      · obtain ⟨p, hp, hpk⟩ := List.any_eq_true.mp h
        have : p.1 = a := by simpa using hpk
        exact this ▸ List.mem_map.mpr ⟨p, hp, rfl⟩
  · rw [if_neg h]
    simp [or_comm, eq_comm]

theorem foldl_alInsert_keys {α ι : Type} (f : ι → String) (g : ι → α) :
    ∀ (ps : List ι) (acc : List (String × α)) (a : String),
      (a ∈ ((ps.foldl (fun r i => alInsert r (f i) (g i)) acc).map Prod.fst) ↔
        a ∈ acc.map Prod.fst ∨ a ∈ ps.map f)
  | [], acc, a => by simp
  | i :: ps, acc, a => by
    rw [List.foldl_cons]
    rw [foldl_alInsert_keys f g ps (alInsert acc (f i) (g i)) a]
    rw [mem_alInsert_keys]
    simp
    tauto

theorem apply_ha_overrides_keys :
    ∀ (ovs : List (String × FieldMap)) (r : Snapshot),
      (apply_ha_overrides ovs r).map Prod.fst = r.map Prod.fst
  | [], r => rfl
  | p :: ovs, r => by
    cases hg : alGet r p.1 with
    | none =>
      simp only [apply_ha_overrides, hg]
      exact apply_ha_overrides_keys ovs r
    | some dd =>
      simp only [apply_ha_overrides, hg]
      by_cases hne : p.2 ≠ []
      · rw [if_pos hne]
        rw [apply_ha_overrides_keys ovs (alInsert r p.1 (fmUpdate dd p.2))]
        exact alInsert_keys_of_any r p.1 _ (any_of_alGet_eq_some hg)
      · rw [if_neg hne]
        exact apply_ha_overrides_keys ovs r

/-- C1 (amended): a successful local-path tick leaves the coordinator state
untouched and returns a snapshot keyed by exactly the identifiers present in
the address map, in insertion order.  Consequently a setup-time identifier
with an address-map entry appears in every local-path snapshot, while a
cloud-only identifier (one with no entry) is dropped by every local-path
tick. -/
theorem local_tick_keys_are_mapped_ids (c : CoordState)
    (states : List LocalDeviceState) (cloudFetch : Except Unit (List FieldMap)) :
    ∃ r, update_from_local c (Except.ok states) cloudFetch = (c, Except.ok r) ∧
      ∀ id, id ∈ r.map Prod.fst ↔ id ∈ c.idToAddr.map Prod.fst := by
  refine ⟨_, rfl, ?_⟩
  intro id
  rw [apply_ha_overrides_keys]
  rw [foldl_alInsert_keys (fun p => p.1) (localDeviceData c states) c.idToAddr [] id]
  simp

/-- C1 counterexample: setup fetches devices `A` and `B` while the local
gateway reports only address 1.  `A` is matched by temperature, `B` obtains
no address-map entry, so the setup snapshot holds `B` but the very next
successful local-path tick does not, refuting snapshot key stability as
claimed. -/
theorem snapshot_key_stability_cex :
    ("B" ∈ ((okValue (async_initial_cloud_fetch coordInit
        (Except.ok [cloudRecA, cloudRecB99]) [localState1]).2).getD []).map Prod.fst) ∧
    coordAfterSetup.idToAddr = [("A", 1)] ∧
    ¬ ("B" ∈ ((okValue (async_update_data coordAfterSetup 20 (Except.ok [localState1])
        (Except.ok [cloudRecA, cloudRecB99])).2).getD []).map Prod.fst) :=
  ⟨by decide, by decide, by decide⟩

/-- C2 (code bug): after a completed control command, `_send_control`
leaves the coordinator's override cache exactly as it was — in every branch,
for every argument.  `set_ha_override` and `clear_ha_overrides` exist but
have no caller, so a command with a `mode` override leaves the cache empty
rather than persisting the commanded value, contradicting the coordinator's
own docstring. -/
theorem send_control_no_override_bookkeeping :
    (∀ (c : CoordState) (dd : FieldMap) (id : String) (ov : FieldMap) (now : ℚ)
      (ok : Bool), ((send_control c dd id ov now ok).1).haOverrides = c.haOverrides) ∧
    ((send_control coordCloudA [] "A" [("mode", "heat")] 5 true).1).haOverrides = [] := by
  constructor
  · intro c dd id ov now ok
    cases ok with
    | false => rfl
    | true =>
      unfold send_control notify_command_sent
      cases hd : c.data with
      | none => simp [hd]
      | some d =>
        by_cases hne : d ≠ []
        · simp [hd, hne]
        · simp [hd, hne]
  · decide

/-- C6 (amended): if the network control call inside `_send_control`
raises, the cooldown timestamp has already been recorded before the call and
is not rolled back, and the error is surfaced to the caller; but the
optimistic snapshot update has NOT taken effect — the coordinator state at
the raise point differs from the pre-call state only in `lastCommandTime`.
The cooldown is recorded before the call on the success path too. -/
theorem send_control_failure_no_rollback (c : CoordState) (dd : FieldMap)
    (id : String) (ov : FieldMap) (now : ℚ) :
    send_control c dd id ov now false
      = ({ c with lastCommandTime := now }, Except.error ()) ∧
    ∀ ok, ((send_control c dd id ov now ok).1).lastCommandTime = now := by
  refine ⟨rfl, ?_⟩
  intro ok
  cases ok with
  | false => rfl
  | true =>
    unfold send_control notify_command_sent
    cases hd : c.data with
    | none => simp [hd]
    | some d =>
      by_cases hne : d ≠ []
      · simp [hd, hne]
      · simp [hd, hne]

/-- C6 counterexample: with device `A` cached in mode `auto`, a failing
`mode=heat` command leaves the published snapshot at `auto` — the same
command with a succeeding network call would have written `heat` — refuting
the claim that the optimistic update has already taken effect when the call
raises. -/
theorem send_control_failure_cex :
    ((send_control coordCloudA [] "A" [("mode", "heat")] 5 false).1).data
      = some [("A", [("id", "A"), ("mode", "auto")])] ∧
    ((send_control coordCloudA [] "A" [("mode", "heat")] 5 true).1).data
      = some [("A", [("id", "A"), ("mode", "heat")])] ∧
    (send_control coordCloudA [] "A" [("mode", "heat")] 5 false).2 = Except.error () :=
  ⟨by decide, by decide, rfl⟩

/-- C9: if the local fetch fails during a local-path tick,
`_update_from_local` delegates the whole tick to `_update_from_cloud` and
the local error is never propagated; and `LocalApi.get_status` itself
returns an empty list on every transport failure — timeout, connection
error, or non-200 response. -/
theorem local_failure_cloud_fallback :
    (∀ (c : CoordState) (cloudFetch : Except Unit (List FieldMap)),
      update_from_local c (Except.error ()) cloudFetch = update_from_cloud c cloudFetch) ∧
    LocalApi_get_status LocalHttp.timeout = [] ∧
    LocalApi_get_status LocalHttp.connError = [] ∧
    (∀ (status : Nat) (entries : List LocalEntry), status ≠ 200 →
      LocalApi_get_status (LocalHttp.response status entries) = []) := by
  refine ⟨fun c cf => rfl, rfl, rfl, ?_⟩
  intro status entries h
  simp [LocalApi_get_status, h]

theorem local_failure_cloud_fallback_witness :
    ((404 : Nat) ≠ 200) ∧ LocalApi_get_status (LocalHttp.response 404 []) = [] ∧
    update_from_local coordCloudA (Except.error ()) (Except.ok [])
      = update_from_cloud coordCloudA (Except.ok []) :=
  ⟨by decide, local_failure_cloud_fallback.2.2.2 404 [] (by decide),
   local_failure_cloud_fallback.1 coordCloudA (Except.ok [])⟩

/-- C8: `parse_hex_status` is total (modelled as an `Option`-valued
function) and returns `none` exactly when the input is the sentinel `"-"`,
is shorter than 14 characters, fails hex decoding after separator
stripping, or decodes to fewer than 7 bytes; in every other case it returns
a `LocalDeviceState`. -/
theorem parse_hex_status_none_iff (addr : Nat) (s : String) :
    parse_hex_status addr s = none ↔
      (s = "-" ∨ s.length < 14 ∨ pyFromHex (hexClean s.toList) = none ∨
        ∃ raw, pyFromHex (hexClean s.toList) = some raw ∧ raw.length < 7) := by
  unfold parse_hex_status
  by_cases h : s = "-" ∨ s.length < 14
  · rw [if_pos h]
    simp only [true_iff]
    tauto
  · rw [if_neg h]
    push_neg at h
    cases hf : pyFromHex (hexClean s.toList) with
    | none => simp [h.1, h.2, hf]
    | some raw =>
      unfold parseRawBytes
      by_cases hl : raw.length < 7
      · simp [h.1, h.2, hf, hl]
      · simp [h.1, h.2, hf, hl]

/-- C3: for every record that decodes to at least 7 bytes, the returned
`is_on` is true exactly when the mode code `(byte3 >> 2) & 7` differs from
4 (off); and any two records agreeing on `byte3 >> 2` — in particular two
records differing only in the raw power bit (bit 0 of byte 3) — decode to
the same `is_on`, so the power bit has no influence. -/
theorem is_on_from_mode_only (a1 a2 : Nat) (raw1 raw2 : List Nat)
    (st1 st2 : LocalDeviceState)
    (h1 : parseRawBytes a1 raw1 = some st1)
    (h2 : parseRawBytes a2 raw2 = some st2)
    (hb : raw1.getD 3 0 >>> 2 = raw2.getD 3 0 >>> 2) :
    (st1.is_on = true ↔ st1.ac_mode ≠ LOCAL_MODE_OFF) ∧
    st1.ac_mode = (raw1.getD 3 0 >>> 2) &&& 7 ∧
    st1.is_on = st2.is_on := by
  unfold parseRawBytes at h1 h2
  by_cases hl1 : raw1.length < 7
  · rw [if_pos hl1] at h1; exact absurd h1 (by simp)
  · rw [if_neg hl1] at h1
    by_cases hl2 : raw2.length < 7
    · rw [if_pos hl2] at h2; exact absurd h2 (by simp)
    · rw [if_neg hl2] at h2
      have e1 := (Option.some.inj h1).symm
      have e2 := (Option.some.inj h2).symm
      subst e1
      subst e2
      refine ⟨?_, rfl, ?_⟩
      · simp [LOCAL_MODE_OFF]
      · simp only [hb]

theorem is_on_from_mode_only_witness :
    parseRawBytes 0 [0, 0, 0, 16, 0, 0, 0] = some stOffPbit0 ∧
    parseRawBytes 0 [0, 0, 0, 17, 0, 0, 0] = some stOffPbit0 ∧
    stOffPbit0.is_on = false ∧
    ([0, 0, 0, 16, 0, 0, 0].getD 3 0 >>> 2 = [0, 0, 0, 17, 0, 0, 0].getD 3 0 >>> 2) ∧
    stOffPbit0.is_on = stOffPbit0.is_on :=
  ⟨by decide, by decide, by decide, by decide,
   (is_on_from_mode_only 0 0 [0, 0, 0, 16, 0, 0, 0] [0, 0, 0, 17, 0, 0, 0]
     stOffPbit0 stOffPbit0 (by decide) (by decide) (by decide)).2.2⟩

/-- C7: bit-level field extraction of `parse_hex_status` on any record of
at least 7 bytes: mode `(byte3 >> 2) & 7`, fan `(byte3 >> 5) & 7`, swing
bit 1 of byte 4, setpoint `(byte4 >> 3) & 0x1F` (at most 31), error code
`(byte2 >> 2) & 0x3F` (at most 63), and measured temperature byte 6 as a
two's-complement signed 8-bit integer, with 0x00 ↦ 0, 0x7F ↦ 127,
0x80 ↦ −128, 0xFF ↦ −1. -/
theorem bit_field_extraction (a : Nat) (raw : List Nat) (st : LocalDeviceState)
    (h : parseRawBytes a raw = some st) :
    st.addr = a ∧
    st.ac_mode = (raw.getD 3 0 >>> 2) &&& 7 ∧
    st.fan_mode = (raw.getD 3 0 >>> 5) &&& 7 ∧
    st.is_swing_on = (((raw.getD 4 0 >>> 1) &&& 1) != 0) ∧
    st.temperature_setpoint = (raw.getD 4 0 >>> 3) &&& 31 ∧
    st.temperature_setpoint ≤ 31 ∧
    st.error_code = (raw.getD 2 0 >>> 2) &&& 63 ∧
    st.error_code ≤ 63 ∧
    st.temperature = (if raw.getD 6 0 < 128 then ((raw.getD 6 0 : Nat) : Int)
                      else ((raw.getD 6 0 : Nat) : Int) - 256) ∧
    (parseRawBytes 0 [0, 0, 0, 0, 0, 0, 0]).map LocalDeviceState.temperature = some 0 ∧
    (parseRawBytes 0 [0, 0, 0, 0, 0, 0, 127]).map LocalDeviceState.temperature = some 127 ∧
    (parseRawBytes 0 [0, 0, 0, 0, 0, 0, 128]).map LocalDeviceState.temperature = some (-128) ∧
    (parseRawBytes 0 [0, 0, 0, 0, 0, 0, 255]).map LocalDeviceState.temperature = some (-1) := by
  unfold parseRawBytes at h
  by_cases hl : raw.length < 7
  · rw [if_pos hl] at h; exact absurd h (by simp)
  · rw [if_neg hl] at h
    have e := (Option.some.inj h).symm
    subst e
    refine ⟨rfl, rfl, rfl, rfl, rfl, Nat.and_le_right, rfl, Nat.and_le_right,
      rfl, by decide, by decide, by decide, by decide⟩

theorem bit_field_extraction_witness :
    parseRawBytes 7 rawSample = some stSample ∧
    stSample.ac_mode = 5 ∧ stSample.temperature_setpoint = 11 ∧
    stSample.error_code = 9 ∧
    stSample.temperature = (if rawSample.getD 6 0 < 128 then ((rawSample.getD 6 0 : Nat) : Int)
                            else ((rawSample.getD 6 0 : Nat) : Int) - 256) :=
  ⟨by decide, by decide, by decide, by decide,
   (bit_field_extraction 7 rawSample stSample (by decide)).2.2.2.2.2.2.2.2.1⟩

/-- C10: `to_cloud_format` is total, and for any state satisfying the
decoder's power policy `is_on = (ac_mode ≠ 4)`: a mode code outside
`{0,…,5}` yields cloud mode `auto` with power `y`; mode code 4 yields
`auto` with power `n`; a fan code outside `{0,2,3,4,5}` yields wind `auto`;
and the power field is `n` exactly when `is_on` is false. -/
theorem to_cloud_format_out_of_range (s : LocalDeviceState)
    (h : s.is_on = (s.ac_mode != LOCAL_MODE_OFF)) :
    (alGet s.to_cloud_format "power" = some (if s.is_on then POWER_ON else POWER_OFF)) ∧
    ((alGet s.to_cloud_format "power" = some POWER_OFF) ↔ s.is_on = false) ∧
    (s.ac_mode ∉ ([0, 1, 2, 3, 4, 5] : List Nat) →
      alGet s.to_cloud_format "mode" = some MODE_AUTO ∧
      alGet s.to_cloud_format "power" = some POWER_ON) ∧
    (s.ac_mode = LOCAL_MODE_OFF →
      alGet s.to_cloud_format "mode" = some MODE_AUTO ∧
      alGet s.to_cloud_format "power" = some POWER_OFF) ∧
    (s.fan_mode ∉ ([0, 2, 3, 4, 5] : List Nat) →
      alGet s.to_cloud_format "wind" = some WIND_AUTO) := by
  have hpower : alGet s.to_cloud_format "power"
      = some (if s.is_on then POWER_ON else POWER_OFF) := rfl
  have hmode : alGet s.to_cloud_format "mode"
      = some ((LOCAL_MODE_TO_CLOUD_get s.ac_mode).getD MODE_AUTO) := rfl
  have hwind : alGet s.to_cloud_format "wind"
      = some (LOCAL_FAN_TO_CLOUD_get s.fan_mode) := rfl
  refine ⟨hpower, ?_, ?_, ?_, ?_⟩
  · rw [hpower]
    cases his : s.is_on with
    | false => simp [POWER_ON, POWER_OFF]
    | true => simp [POWER_ON, POWER_OFF]
  · intro hnot
    simp only [List.mem_cons, List.mem_singleton, not_or] at hnot
    obtain ⟨n0, n1, n2, n3, n4, n5⟩ := hnot
    constructor
    · rw [hmode]
      simp [LOCAL_MODE_TO_CLOUD_get, LOCAL_MODE_COOL, LOCAL_MODE_HEAT,
        LOCAL_MODE_DRY, LOCAL_MODE_FAN, LOCAL_MODE_OFF, LOCAL_MODE_AUTO,
        n0, n1, n2, n3, n4, n5]
    · rw [hpower]
      have : s.is_on = true := by
        rw [h]
        simp [LOCAL_MODE_OFF, n4]
      simp [this]
  · intro h4
    constructor
    · rw [hmode]
      simp [LOCAL_MODE_TO_CLOUD_get, LOCAL_MODE_COOL, LOCAL_MODE_HEAT,
        LOCAL_MODE_DRY, LOCAL_MODE_FAN, LOCAL_MODE_OFF, LOCAL_MODE_AUTO, h4]
    · rw [hpower]
      have : s.is_on = false := by
        rw [h, h4]
        simp [LOCAL_MODE_OFF]
      simp [this]
  · intro hnot
    simp only [List.mem_cons, List.mem_singleton, not_or] at hnot
    obtain ⟨n0, n2, n3, n4, n5⟩ := hnot
    rw [hwind]
    simp [LOCAL_FAN_TO_CLOUD_get, LOCAL_FAN_AUTO, LOCAL_FAN_LOW,
      LOCAL_FAN_MEDIUM, LOCAL_FAN_HIGH, LOCAL_FAN_OFF, n0, n2, n3, n4, n5]

theorem to_cloud_format_out_of_range_witness :
    (localStateMode6.is_on = (localStateMode6.ac_mode != LOCAL_MODE_OFF)) ∧
    (localStateMode6.ac_mode ∉ ([0, 1, 2, 3, 4, 5] : List Nat)) ∧
    (localStateMode6.fan_mode ∉ ([0, 2, 3, 4, 5] : List Nat)) ∧
    (alGet localStateMode6.to_cloud_format "mode" = some MODE_AUTO ∧
     alGet localStateMode6.to_cloud_format "power" = some POWER_ON) ∧
    alGet localStateMode6.to_cloud_format "wind" = some WIND_AUTO :=
  ⟨by decide, by decide, by decide,
   (to_cloud_format_out_of_range localStateMode6 (by decide)).2.2.1 (by decide),
   (to_cloud_format_out_of_range localStateMode6 (by decide)).2.2.2.2 (by decide)⟩

/-- C4: cooldown tick suppression.  If a command was sent
(`lastCommandTime ≠ 0`) and the tick starts at `now` with
`now − lastCommandTime < 15`, `_async_update_data` consults neither fetch
and returns the previous snapshot with the state unchanged; if no command
was ever sent or at least 15 seconds elapsed, the tick proceeds to the
local or cloud fetch.  The boundary is strict on both sides. -/
theorem cooldown_tick_gate (c : CoordState) (now : ℚ)
    (localFetch : Except Unit (List LocalDeviceState))
    (cloudFetch : Except Unit (List FieldMap)) :
    (c.lastCommandTime ≠ 0 → now - c.lastCommandTime < COMMAND_COOLDOWN_SECONDS →
      async_update_data c now localFetch cloudFetch = (c, Except.ok (c.data.getD []))) ∧
    (c.lastCommandTime = 0 ∨ COMMAND_COOLDOWN_SECONDS ≤ now - c.lastCommandTime →
      async_update_data c now localFetch cloudFetch =
        if c.hasLocal = true ∧ c.idToAddr ≠ [] then
          update_from_local c localFetch cloudFetch
        else update_from_cloud c cloudFetch) := by
  constructor
  · intro h0 hlt
    unfold async_update_data in_cooldown
    rw [if_neg h0]
    simp [hlt]
  · intro h
    unfold async_update_data in_cooldown
    rcases h with h0 | hge
    · simp [h0]
    · by_cases h0 : c.lastCommandTime = 0
      · simp [h0]
      · rw [if_neg h0]
        simp [not_lt.mpr hge]

theorem cooldown_tick_gate_witness :
    (coordAfterCommand.lastCommandTime ≠ 0) ∧
    ((1149 / 10 : ℚ) - coordAfterCommand.lastCommandTime < COMMAND_COOLDOWN_SECONDS) ∧
    (async_update_data coordAfterCommand (1149 / 10) (Except.error ()) (Except.error ())
      = (coordAfterCommand, Except.ok [("A", [("id", "A"), ("mode", "auto")])])) ∧
    (COMMAND_COOLDOWN_SECONDS ≤ (1151 / 10 : ℚ) - coordAfterCommand.lastCommandTime) ∧
    (async_update_data coordAfterCommand (1151 / 10) (Except.error ()) (Except.error ())
      = update_from_cloud coordAfterCommand (Except.error ())) := by
  have h0 : coordAfterCommand.lastCommandTime ≠ 0 := by
    show (100 : ℚ) ≠ 0
    norm_num
  have hlt : (1149 / 10 : ℚ) - coordAfterCommand.lastCommandTime
      < COMMAND_COOLDOWN_SECONDS := by
    show (1149 / 10 : ℚ) - 100 < 15
    norm_num
  have hge : COMMAND_COOLDOWN_SECONDS ≤ (1151 / 10 : ℚ)
      - coordAfterCommand.lastCommandTime := by
    show (15 : ℚ) ≤ 1151 / 10 - 100
    norm_num
  refine ⟨h0, hlt, ?_, hge, ?_⟩
  · exact (cooldown_tick_gate coordAfterCommand (1149 / 10)
      (Except.error ()) (Except.error ())).1 h0 hlt
  · exact (cooldown_tick_gate coordAfterCommand (1151 / 10)
      (Except.error ()) (Except.error ())).2 (Or.inr hge)

/-! C5 support -/

theorem find?_and_eq_find?_filter {α : Type} (p q : α → Bool) :
    ∀ xs : List α, xs.find? (fun a => q a && p a) = (xs.filter q).find? p
  | [] => rfl
  | x :: xs => by
    cases hq : q x with
    | true =>
      cases hp : p x with
      | true => simp [List.find?_cons, List.filter_cons, hq, hp]
      | false =>
        simp only [List.find?_cons, List.filter_cons, hq, hp, Bool.true_and,
          if_true, cond_false]
        exact find?_and_eq_find?_filter p q xs
    | false =>
      simp only [List.find?_cons, List.filter_cons, hq, Bool.false_and,
        if_false, cond_false]
      exact find?_and_eq_find?_filter p q xs

theorem eraseP_eq_filter_addr (p : LocalDeviceState → Bool) :
    ∀ (xs : List LocalDeviceState) (l : LocalDeviceState),
      (xs.map (fun x => x.addr)).Nodup → xs.find? p = some l →
      xs.eraseP p = xs.filter (fun x => !(decide (x.addr = l.addr)))
  | [], l, _, hf => by simp at hf
  | x :: xs, l, hnd, hf => by
    rw [List.map_cons, List.nodup_cons] at hnd
    cases hp : p x with
    | true =>
      rw [List.find?_cons_of_pos _ hp] at hf
      have hx : x = l := Option.some.inj hf
      subst hx
      rw [List.eraseP_cons_of_pos hp]
      rw [List.filter_cons_of_neg]
      · symm
        rw [List.filter_eq_self]
        intro a ha
        simp only [Bool.not_eq_true', decide_eq_false_iff_not]
        intro hcontra
        exact hnd.1 (hcontra ▸ List.mem_map.mpr ⟨a, ha, rfl⟩)
      · simp
    | false =>
      rw [List.find?_cons_of_neg _ (by simp [hp])] at hf
      have hlm : l ∈ xs := List.mem_of_find?_eq_some hf
      rw [List.eraseP_cons_of_neg (by simp [hp])]
      rw [List.filter_cons_of_pos]
      · rw [eraseP_eq_filter_addr p xs l hnd.2 hf]
      · simp only [Bool.not_eq_true', decide_eq_false_iff_not]
        intro hcontra
        exact hnd.1 (hcontra ▸ List.mem_map.mpr ⟨l, hlm, rfl⟩)

theorem strat1_matched_subset :
    ∀ (cl : List (String × FieldMap)) (locs : List LocalDeviceState)
      (ml : List Nat), (strat1 cl locs ml).2.1 ⊆ cl.map Prod.fst
  | [], _, _ => by simp [strat1]
  | (did, d) :: rest, locs, ml => by
    intro a ha
    rw [List.map_cons]
    unfold strat1 at ha
    cases hf : locs.find? (fun l => !(decide (l.addr ∈ ml)) && tempsMatch d l) with
    | some l =>
      rw [hf] at ha
      simp only at ha
      rcases List.mem_cons.mp ha with rfl | ha2
      · exact List.mem_cons_self _ _
      · exact List.mem_cons_of_mem _ (strat1_matched_subset rest locs (l.addr :: ml) ha2)
    | none =>
      rw [hf] at ha
      simp only at ha
      exact List.mem_cons_of_mem _ (strat1_matched_subset rest locs ml ha)

theorem strat1_spec :
    ∀ (cl : List (String × FieldMap)) (locs : List LocalDeviceState) (ml : List Nat),
      (cl.map Prod.fst).Nodup → (locs.map (fun x => x.addr)).Nodup →
      (strat1 cl locs ml).1
          = (specPass1 cl (locs.filter (fun l => !(decide (l.addr ∈ ml))))).1 ∧
      (specPass1 cl (locs.filter (fun l => !(decide (l.addr ∈ ml))))).2.1
          = cl.filter (fun p => !(decide (p.1 ∈ (strat1 cl locs ml).2.1))) ∧
      (specPass1 cl (locs.filter (fun l => !(decide (l.addr ∈ ml))))).2.2
          = locs.filter (fun l => !(decide (l.addr ∈ (strat1 cl locs ml).2.2)))
  | [], locs, ml, _, _ => by
    refine ⟨rfl, by simp [strat1, specPass1], rfl⟩
  | (did, d) :: rest, locs, ml, hcl, hnd => by
    rw [List.map_cons, List.nodup_cons] at hcl
    have hbridge : locs.find? (fun l => !(decide (l.addr ∈ ml)) && tempsMatch d l)
        = (locs.filter (fun l => !(decide (l.addr ∈ ml)))).find? (tempsMatch d) :=
      find?_and_eq_find?_filter (tempsMatch d) (fun l => !(decide (l.addr ∈ ml))) locs
    cases hf : (locs.filter (fun l => !(decide (l.addr ∈ ml)))).find? (tempsMatch d) with
    | some l =>
      have hndF : ((locs.filter (fun l => !(decide (l.addr ∈ ml)))).map
          (fun x => x.addr)).Nodup :=
        List.Nodup.sublist ((List.filter_sublist locs).map _) hnd
      have herase : (locs.filter (fun l => !(decide (l.addr ∈ ml)))).eraseP (tempsMatch d)
          = locs.filter (fun x => !(decide (x.addr ∈ l.addr :: ml))) := by
        rw [eraseP_eq_filter_addr (tempsMatch d) _ l hndF hf]
        rw [List.filter_filter]
        apply List.filter_congr
        intro x _
        by_cases h1 : x.addr = l.addr <;> by_cases h2 : x.addr ∈ ml <;>
          simp [h1, h2, List.mem_cons]
      obtain ⟨ih1, ih2, ih3⟩ := strat1_spec rest locs (l.addr :: ml) hcl.2 hnd
      refine ⟨?_, ?_, ?_⟩
      · simp only [strat1, specPass1, hbridge, hf]
        rw [herase, ih1]
      · simp only [strat1, specPass1, hbridge, hf]
        rw [herase, ih2]
        rw [List.filter_cons_of_neg (by simp)]
        apply List.filter_congr
        intro p hp
        have hne : p.1 ≠ did := by
          intro hcontra
          exact hcl.1 (hcontra ▸ List.mem_map.mpr ⟨p, hp, rfl⟩)
        simp [List.mem_cons, hne]
      · simp only [strat1, specPass1, hbridge, hf]
        rw [herase, ih3]
    | none =>
      obtain ⟨ih1, ih2, ih3⟩ := strat1_spec rest locs ml hcl.2 hnd
      refine ⟨?_, ?_, ?_⟩
      · simp only [strat1, specPass1, hbridge, hf]
        rw [ih1]
      · simp only [strat1, specPass1, hbridge, hf]
        rw [ih2]
        rw [List.filter_cons_of_pos]
        simp only [Bool.not_eq_true', decide_eq_false_iff_not]
        intro hcontra
        exact hcl.1 (strat1_matched_subset rest locs ml hcontra)
      · simp only [strat1, specPass1, hbridge, hf]
        rw [ih3]

theorem insertByAddr_perm (x : LocalDeviceState) :
    ∀ ys : List LocalDeviceState, (insertByAddr x ys).Perm (x :: ys)
  | [] => List.Perm.refl _
  | y :: ys => by
    unfold insertByAddr
    by_cases h : x.addr ≤ y.addr
    · rw [if_pos h]
    · rw [if_neg h]
      exact ((insertByAddr_perm x ys).cons y).trans (List.Perm.swap x y ys)

theorem sortByAddr_perm : ∀ xs : List LocalDeviceState, (sortByAddr xs).Perm xs
  | [] => List.Perm.refl _
  | x :: xs =>
    (insertByAddr_perm x (sortByAddr xs)).trans ((sortByAddr_perm xs).cons x)

/-- C5: `_build_addr_mapping` equals the spec's two-pass description —
attribute matching in cloud order over ascending addresses with
first-candidate-wins consumption, then a positional zip of the leftovers —
for every cloud list with distinct identifiers and every local list with
distinct addresses; and on the spec's scenario it produces
`{A ↦ 1, B ↦ 2}` via attribute match. -/
theorem build_addr_mapping_two_pass (cloudList : List (String × FieldMap))
    (localStates : List LocalDeviceState)
    (hc : (cloudList.map Prod.fst).Nodup)
    (hl : (localStates.map (fun x => x.addr)).Nodup) :
    build_addr_mapping cloudList localStates
      = specBuildAddrMapping cloudList localStates ∧
    build_addr_mapping [("A", cloudRecA), ("B", cloudRecB)]
        [localState1, localState2]
      = [("A", 1), ("B", 2)] := by
  refine ⟨?_, by decide⟩
  by_cases hempty : localStates = []
  · simp only [build_addr_mapping, specBuildAddrMapping, if_pos hempty]
  · simp only [build_addr_mapping, specBuildAddrMapping, if_neg hempty]
    have hnd : ((sortByAddr localStates).map (fun x => x.addr)).Nodup := by
      rw [((sortByAddr_perm localStates).map (fun x => x.addr)).nodup_iff]
      exact hl
    have hid : (sortByAddr localStates).filter
        (fun l => !(decide (l.addr ∈ ([] : List Nat)))) = sortByAddr localStates := by
      rw [List.filter_eq_self]
      intro a _
      simp
    obtain ⟨h1, h2, h3⟩ := strat1_spec cloudList (sortByAddr localStates) [] hc hnd
    rw [hid] at h1 h2 h3
    rw [h1, ← h2, ← h3]

theorem build_addr_mapping_two_pass_witness :
    (([("A", cloudRecA), ("B", cloudRecB)].map Prod.fst).Nodup) ∧
    (([localState1, localState2].map (fun x => x.addr)).Nodup) ∧
    build_addr_mapping [("A", cloudRecA), ("B", cloudRecB)]
        [localState1, localState2]
      = specBuildAddrMapping [("A", cloudRecA), ("B", cloudRecB)]
          [localState1, localState2] :=
  ⟨by decide, by decide,
   (build_addr_mapping_two_pass [("A", cloudRecA), ("B", cloudRecB)]
     [localState1, localState2] (by decide) (by decide)).1⟩
